import Mathlib

/-!
# Verification of CB2pdf (`cb2pdf.py`)

A shallow embedding of the batch comic-archive-to-PDF converter in
`cb2pdf.py`.  Pure computations (name filtering, entry selection and
sorting, batch slicing, pause scheduling) are translated directly from
the source.  The external collaborators (zip/rar archive opening, image
decoding, PDF saving, the `shutil.move` primitive) are modelled as
per-file oracles recorded in a `FileSpec`; each failure an oracle
reports stands for the exception the corresponding Python call would
raise, and the `try`/`except` nesting of the source is translated into
explicit case analysis on those oracle results.  Log lines are modelled
as a structured `LogEntry` type together with a `render` function that
reproduces the exact f-string templates of the source.

Strings are compared the way Python compares them: lexicographically by
code point (`lexLe` below); suffix tests and lowercasing are translated
onto the underlying character lists so that they are kernel-computable.
-/

namespace CB2pdf

/-- `os.path.join(a, b)` for a plain relative component `b`, as used by
`Converter.__init__` and `process_file`. -/
def pathJoin (a b : String) : String := a ++ "/" ++ b

/-- `s.endswith(suffix)` on the underlying character list. -/
def strEndsWith (s suffix : String) : Bool := suffix.data.isSuffixOf s.data

/-- `s.lower()`: lowercase each character (the source only ever feeds it
ASCII extensions such as `.CBZ`, for which `Char.toLower` agrees with
Python's `str.lower`). -/
def strToLower (s : String) : String := ⟨s.data.map Char.toLower⟩

/-- Python's `<=` on strings: lexicographic comparison of code points. -/
def lexLe : List Char → List Char → Bool
  | [], _ => true
  | _ :: _, [] => false
  | a :: as, b :: bs =>
    if a.toNat < b.toNat then true
    else if b.toNat < a.toNat then false
    else lexLe as bs

/-- `s <= t` for Python strings. -/
def strLe (s t : String) : Bool := lexLe s.data t.data

/-- The image-entry filter of `process_cbz` / `process_cbr` (lines 45, 53):
`name.lower().endswith(('jpg', 'jpeg', 'png'))` — a loose suffix check on
the lowercased name, not a true extension check. -/
def isImageName (name : String) : Bool :=
  strEndsWith (strToLower name) "jpg" || strEndsWith (strToLower name) "jpeg" ||
    strEndsWith (strToLower name) "png"

/-- Entry selection of `process_cbz` / `process_cbr`:
`sorted([name for name in archive.namelist() if name.lower().endswith(...)])`.
Python's `sorted` is an ascending stable sort under lexicographic string
comparison; `List.insertionSort` with `strLe` is likewise an ascending
stable sort under the same comparison. -/
def selectEntries (names : List String) : List String :=
  List.insertionSort (fun s t => strLe s t = true) (names.filter isImageName)

/-- The discovery filter of `process_files_in_batches` (line 79):
`f.lower().endswith(('.cbz', '.cbr'))`. -/
def isArchiveName (name : String) : Bool :=
  strEndsWith (strToLower name) ".cbz" || strEndsWith (strToLower name) ".cbr"

/-- A directory entry as returned by `os.listdir`: a name plus the kind of
filesystem object it denotes.  The kind is information the source never
inspects (`os.listdir` yields names of files and subdirectories alike). -/
structure DirEntry where
  name : String
  isRegularFile : Bool
deriving DecidableEq, Repr

/-- File discovery (`process_files_in_batches`, line 79):
`[f for f in os.listdir(self.path) if f.lower().endswith(('.cbz', '.cbr'))]`. -/
def discoverFiles (entries : List DirEntry) : List String :=
  (entries.filter (fun e => isArchiveName e.name)).map (fun e => e.name)

/-- The exceptions the archive-opening collaborators can raise:
`rarfile.NotRarFile` is distinguished because `process_cbr` has a
dedicated handler for it; everything else (e.g. `zipfile.BadZipFile`)
falls to the generic `except Exception` handlers. -/
inductive OpenError where
  | notRarFile (msg : String)
  | other (msg : String)
deriving DecidableEq, Repr

/-- `str(e)` for an archive-opening exception. -/
def OpenError.message : OpenError → String
  | .notRarFile m => m
  | .other m => m

/-- One input file together with the behavior of the external
collaborators on it: the result of opening it as an archive (its entry
names, or the exception raised), the per-entry decode failures of
`archive.open` + `Image.open(...).convert('RGB')`, the failure of
`images[0].save(...)`, and the failure of `shutil.move`.  A `some msg`
stands for the exception text the Python call would raise. -/
structure FileSpec where
  name : String
  openResult : Except OpenError (List String)
  decodeErr : String → Option String
  saveErr : Option String
  moveErr : Option String

deriving instance DecidableEq for Except

/-- The observable effects of one `images_to_pdf` call: its outcome (the
exception it raises, if any), the images decoded into memory (`images`
list, in append order), the images closed by the cleanup loop, and
whether `images[0].save(...)` produced a PDF. -/
structure ImagesResult where
  outcome : Except String Unit
  opened : List String
  closed : List String
  pdfSaved : Bool
deriving DecidableEq, Repr

/-- The decode loop of `images_to_pdf` (lines 30-33): decode each entry in
order, appending to `images`; the first raising decode aborts the loop.
Returns the decoded prefix and the exception, if any. -/
def decodeLoop (decodeErr : String → Option String) : List String → List String × Option String
  | [] => ([], none)
  | f :: fs =>
    match decodeErr f with
    | some e => ([], some e)
    | none =>
      let r := decodeLoop decodeErr fs
      (f :: r.1, r.2)

/-- `Converter.images_to_pdf` (lines 27-40).  Decode all entries; if the
decoded list is non-empty, save it as a single PDF; then close every
decoded image.  There is no `try`/`finally`: an exception from decoding
or saving propagates at once, skipping both the save (when decoding
failed) and the cleanup loop, so `closed` is empty on every raising
path. -/
def images_to_pdf (decodeErr : String → Option String) (saveErr : Option String)
    (imageFiles : List String) : ImagesResult :=
  match decodeLoop decodeErr imageFiles with
  | (opened, some e) => ⟨.error e, opened, [], false⟩
  | (opened, none) =>
    if opened.isEmpty then ⟨.ok (), opened, opened, false⟩
    else
      match saveErr with
      | some e => ⟨.error e, opened, [], false⟩
      | none => ⟨.ok (), opened, opened, true⟩

/-- The four log-line templates of the source, kept structured; `render`
produces the exact f-string text of each. -/
inductive LogEntry where
  | errorProcessingCBZ (filePath msg : String)
  | errorProcessingCBR (filePath msg : String)
  | notAValidRARFile (filePath : String)
  | failedToProcess (filename msg : String)
deriving DecidableEq, Repr

/-- The f-string each `log_error` call site formats (lines 48, 56, 58, 74). -/
def LogEntry.render : LogEntry → String
  | .errorProcessingCBZ p m => "Error processing CBZ " ++ p ++ ": " ++ m
  | .errorProcessingCBR p m => "Error processing CBR " ++ p ++ ": " ++ m
  | .notAValidRARFile p => "Not a valid RAR file: " ++ p
  | .failedToProcess f m => "Failed to process " ++ f ++ ": " ++ m

/-- Whether a log entry uses the generic outer-handler template. -/
def LogEntry.isGenericFailure : LogEntry → Bool
  | .failedToProcess _ _ => true
  | _ => false

/-- The observable effects of one `process_cbz` / `process_cbr` call. -/
structure ConvResult where
  logs : List LogEntry
  pdfSaved : Bool
deriving DecidableEq, Repr

/-- `Converter.process_cbz` (lines 42-48): open the archive, select and
sort the image entries, convert; any exception — from the open or from
`images_to_pdf` — is caught by `except Exception` and logged with the
CBZ-specific template.  No exception escapes. -/
def process_cbz (filePath : String) (f : FileSpec) : ConvResult :=
  match f.openResult with
  | .error e => ⟨[.errorProcessingCBZ filePath e.message], false⟩
  | .ok entries =>
    let r := images_to_pdf f.decodeErr f.saveErr (selectEntries entries)
    match r.outcome with
    | .error e => ⟨[.errorProcessingCBZ filePath e], r.pdfSaved⟩
    | .ok _ => ⟨[], r.pdfSaved⟩

/-- `Converter.process_cbr` (lines 50-58): as `process_cbz`, but a
`rarfile.NotRarFile` from the open has a dedicated handler and template;
every other exception falls to `except Exception`.  No exception
escapes. -/
def process_cbr (filePath : String) (f : FileSpec) : ConvResult :=
  match f.openResult with
  | .error (.notRarFile _) => ⟨[.notAValidRARFile filePath], false⟩
  | .error (.other e) => ⟨[.errorProcessingCBR filePath e], false⟩
  | .ok entries =>
    let r := images_to_pdf f.decodeErr f.saveErr (selectEntries entries)
    match r.outcome with
    | .error e => ⟨[.errorProcessingCBR filePath e], r.pdfSaved⟩
    | .ok _ => ⟨[], r.pdfSaved⟩

/-- The observable per-file outcome after `process_file` returns. -/
structure FileOutcome where
  pdfProduced : Bool
  relocated : Bool
  logs : List LogEntry
deriving DecidableEq, Repr

/-- The format dispatch of `process_file` (lines 65-68): the `if`/`elif`
on the lowercased filename suffix.  A name matching neither suffix (which
discovery pre-filters out) converts nothing. -/
def convertStep (filePath : String) (f : FileSpec) : ConvResult :=
  if strEndsWith (strToLower f.name) ".cbz" then process_cbz filePath f
  else if strEndsWith (strToLower f.name) ".cbr" then process_cbr filePath f
  else ⟨[], false⟩

/-- `Converter.process_file` (lines 60-74): dispatch on the lowercased
filename suffix, then move the file into `original/`.  The per-format
calls never raise (they handle everything internally), so the move runs
unconditionally after them; only an exception from `shutil.move` reaches
the outer `except Exception`, which logs the generic template and leaves
the file where it was. -/
def process_file (dir : String) (f : FileSpec) : FileOutcome :=
  let filePath := pathJoin dir f.name
  match f.moveErr with
  | none => ⟨(convertStep filePath f).pdfSaved, true, (convertStep filePath f).logs⟩
  | some e =>
    ⟨(convertStep filePath f).pdfSaved, false,
      (convertStep filePath f).logs ++ [.failedToProcess f.name e]⟩

/-- One batch of `process_files_in_batches`: every file in the batch is
processed to completion (the orchestrator collects `future.result()` for
all submitted jobs); each job's outcome depends only on its own
`FileSpec`. -/
def processBatch (dir : String) (files : List FileSpec) : List FileOutcome :=
  files.map (process_file dir)

/-- A terminal per-file outcome: the job finished with the file relocated
(success path) or with at least one log entry (its own logged failure). -/
def terminalOutcome (o : FileOutcome) : Bool := o.relocated || !o.logs.isEmpty

/-- Number of loop iterations of `range(0, total_files, batch_size)`, as
printed by the source: `(total_files + batch_size - 1) // batch_size`. -/
def numBatches (batchSize total : Nat) : Nat := (total + batchSize - 1) / batchSize

/-- The batch slice `file_list[i:i+batch_size]` for iteration `k`
(`i = k * batch_size`). -/
def batchAt (batchSize : Nat) (l : List α) (k : Nat) : List α :=
  (l.drop (k * batchSize)).take batchSize

/-- All batches, in the order the loop of `process_files_in_batches`
produces them. -/
def batches (batchSize : Nat) (l : List α) : List (List α) :=
  (List.range (numBatches batchSize l.length)).map (batchAt batchSize l)

/-- The pause test after iteration `k` (line 102):
`if i + batch_size < total_files: time.sleep(sleep_time)`. -/
def pausesAfter (batchSize total k : Nat) : Bool :=
  k * batchSize + batchSize < total

/-- C1 failing input: a `.cbz` file whose zip open raises (a corrupt or
non-zip file), with a move primitive that succeeds. -/
def c1File : FileSpec :=
  ⟨"bad.cbz", .error (.other "File is not a zip file"), fun _ => none, none, none⟩

/-- C2 failing input: a `.cbr` file whose rar open raises
`rarfile.NotRarFile`, with a move primitive that succeeds. -/
def c2File : FileSpec :=
  ⟨"bad.cbr", .error (.notRarFile "Not a RAR archive"), fun _ => none, none, none⟩

/-- C3 input: a `.cbz` archive that opens fine but whose PDF save raises. -/
def c3File : FileSpec :=
  ⟨"comic.cbz", .ok ["page1.jpg"], fun _ => none, some "cannot write PDF", none⟩

/-- C4 decode oracle: every entry decodes successfully. -/
def c4Decode : String → Option String := fun _ => none

/-- C5 decode oracle: every entry decodes successfully. -/
def c5Decode : String → Option String := fun _ => none

/-- C6 input: a `.cbr` archive that opens fine but holds no qualifying
image entry. -/
def c6File : FileSpec :=
  ⟨"empty.cbr", .ok ["notes.txt", "cover.bmp"], fun _ => none, none, none⟩

/-- C8 input: a job whose image decoding raises mid-batch. -/
def c8File : FileSpec :=
  ⟨"crash.cbz", .ok ["p1.jpg"], fun _ => some "decoder exploded", none, none⟩

/-- C10 input: a file that converts fine but whose `shutil.move` raises. -/
def c10File : FileSpec :=
  ⟨"good.cbz", .ok [], fun _ => none, none, some "Permission denied"⟩

end CB2pdf

namespace CB2pdf

/-! ## Properties of the string comparison -/

theorem lexLe_total : ∀ a b, lexLe a b = true ∨ lexLe b a = true := by
  intro a
  induction a with
  | nil => intro b; left; rfl
  | cons x xs ih =>
    intro b
    cases b with
    | nil => right; rfl
    | cons y ys =>
      by_cases hxy : x.toNat < y.toNat
      · left; simp [lexLe, hxy]
      · by_cases hyx : y.toNat < x.toNat
        · right; simp [lexLe, hyx]
        · rcases ih ys with h | h
          · left; simp [lexLe, hxy, hyx, h]
          · right; simp [lexLe, hxy, hyx, h]

theorem lexLe_trans : ∀ a b c, lexLe a b = true → lexLe b c = true → lexLe a c = true := by
  intro a
  induction a with
  | nil => intro b c _ _; rfl
  | cons x xs ih =>
    intro b c hab hbc
    cases b with
    | nil => simp [lexLe] at hab
    | cons y ys =>
      cases c with
      | nil => simp [lexLe] at hbc
      | cons z zs =>
        simp only [lexLe] at hab hbc ⊢
        by_cases hxy : x.toNat < y.toNat <;> by_cases hyz : y.toNat < z.toNat <;>
          by_cases hyx : y.toNat < x.toNat <;> by_cases hzy : z.toNat < y.toNat <;>
            simp [hxy, hyz, hyx, hzy] at hab hbc ⊢ <;>
              first
                | omega
                | (have h1 : ¬ x.toNat < z.toNat := by omega
                   have h2 : ¬ z.toNat < x.toNat := by omega
                   simp [h1, h2]
                   exact ⟨by omega, ih ys zs hab hbc⟩)

instance : IsTotal String (fun s t => strLe s t = true) :=
  ⟨fun s t => lexLe_total s.data t.data⟩

instance : IsTrans String (fun s t => strLe s t = true) :=
  ⟨fun a b c => lexLe_trans a.data b.data c.data⟩

/-! ## Decode-loop helpers -/

theorem decodeLoop_no_err (d : String → Option String) (hd : ∀ x, d x = none) :
    ∀ files : List String, decodeLoop d files = (files, none) := by
  intro files
  induction files with
  | nil => rfl
  | cons f fs ih => simp [decodeLoop, hd f, ih]

end CB2pdf

/-- C5: for every archive, the entries selected for conversion are exactly
those whose lowercased name ends with the suffix "jpg", "jpeg" or "png"
(a loose suffix check: "xajpg" matches), the produced PDF's pages are the
decoded images of these entries in lexicographically ascending order of
their names, and in particular entries ["b.png", "a.jpg", "c.jpeg"] yield
page order a.jpg, b.png, c.jpeg. -/
theorem c5_entry_selection_and_order :
    (∀ names : List String,
        (CB2pdf.selectEntries names).Perm (names.filter CB2pdf.isImageName) ∧
        (CB2pdf.selectEntries names).Sorted (fun s t => CB2pdf.strLe s t = true)) ∧
    (∀ name : String,
        CB2pdf.isImageName name =
          (CB2pdf.strEndsWith (CB2pdf.strToLower name) "jpg" ||
            CB2pdf.strEndsWith (CB2pdf.strToLower name) "jpeg" ||
            CB2pdf.strEndsWith (CB2pdf.strToLower name) "png")) ∧
    (∀ (d : String → Option String) (s : Option String) (files : List String),
        (∀ x, d x = none) →
        (CB2pdf.images_to_pdf d s files).opened = files) ∧
    CB2pdf.isImageName "xajpg" = true ∧
    CB2pdf.selectEntries ["b.png", "a.jpg", "c.jpeg"] = ["a.jpg", "b.png", "c.jpeg"] := by
  refine ⟨fun names => ⟨List.perm_insertionSort _ _, List.sorted_insertionSort _ _⟩,
    fun name => rfl, ?_, by decide, by decide⟩
  intro d s files hd
  unfold CB2pdf.images_to_pdf
  rw [CB2pdf.decodeLoop_no_err d hd files]
  by_cases h : files.isEmpty <;> cases s <;> simp [h]

/-- C5 witness: the general clauses of `c5_entry_selection_and_order`
instantiated at concrete inputs. -/
theorem c5_entry_selection_and_order_witness :
    (CB2pdf.images_to_pdf CB2pdf.c5Decode none ["a.jpg", "b.png"]).opened
      = ["a.jpg", "b.png"] :=
  c5_entry_selection_and_order.2.2.1 CB2pdf.c5Decode none ["a.jpg", "b.png"]
    (fun _ => rfl)

/-- C9: discovery selects a directory entry based solely on its name — any
entry whose lowercased name ends with ".cbz" or ".cbr" goes into the file
list and is dispatched, with no check that the entry is a regular file; a
subdirectory named "x.cbz" is dispatched. -/
theorem c9_discovery_name_only (entries : List CB2pdf.DirEntry) :
    (∀ e ∈ entries,
        (e.name ∈ CB2pdf.discoverFiles entries ↔ CB2pdf.isArchiveName e.name = true)) ∧
    (∀ (name : String) (kind kind' : Bool),
        CB2pdf.discoverFiles [⟨name, kind⟩] = CB2pdf.discoverFiles [⟨name, kind'⟩]) ∧
    CB2pdf.discoverFiles [⟨"x.cbz", false⟩] = ["x.cbz"] := by
  unfold CB2pdf.discoverFiles
  refine ⟨?_, ?_, by decide⟩
  · intro e he
    constructor
    · intro h
      rcases List.mem_map.mp h with ⟨e', he', hname⟩
      have hp := (List.mem_filter.mp he').2
      rw [← hname]
      simpa using hp
    · intro h
      exact List.mem_map_of_mem _ (List.mem_filter.mpr ⟨he, by simpa using h⟩)
  · intro name kind kind'
    simp only [List.filter_cons, List.filter_nil]
    cases h : CB2pdf.isArchiveName name <;> simp [h]

/-- C9 witness: `c9_discovery_name_only` at a concrete listing holding a
directory named "dir.cbz". -/
theorem c9_discovery_name_only_witness :
    "dir.cbz" ∈ CB2pdf.discoverFiles [⟨"dir.cbz", false⟩, ⟨"notes.txt", true⟩] :=
  ((c9_discovery_name_only [⟨"dir.cbz", false⟩, ⟨"notes.txt", true⟩]).1
    ⟨"dir.cbz", false⟩ (by simp)).mpr (by decide)

namespace CB2pdf

/-! ## Batching helpers -/

theorem numBatches_zero (b : Nat) (hb : 0 < b) : numBatches b 0 = 0 := by
  unfold numBatches
  exact Nat.div_eq_of_lt (by omega)

theorem numBatches_step (b n : Nat) (hb : 0 < b) (hn : 0 < n) :
    numBatches b n = numBatches b (n - b) + 1 := by
  unfold numBatches
  rcases le_or_lt n b with h | h
  · have h0 : n - b = 0 := by omega
    have h1 : n + b - 1 = (n - 1) + b := by omega
    have h2 : (n - 1) / b = 0 := Nat.div_eq_of_lt (by omega)
    have h3 : (0 + b - 1) / b = 0 := Nat.div_eq_of_lt (by omega)
    rw [h0, h1, Nat.add_div_right _ hb, h2, h3]
  · have h1 : n + b - 1 = (n - b + b - 1) + b := by omega
    rw [h1, Nat.add_div_right _ hb]

theorem batchAt_succ (b : Nat) (l : List α) (k : Nat) :
    batchAt b l (k + 1) = batchAt b (l.drop b) k := by
  unfold batchAt
  rw [List.drop_drop]
  have h : b + k * b = (k + 1) * b := by ring
  rw [h]

theorem batches_cons (b : Nat) (hb : 0 < b) (l : List α) (hl : l ≠ []) :
    batches b l = l.take b :: batches b (l.drop b) := by
  have hlen : 0 < l.length := List.length_pos.mpr hl
  unfold batches
  rw [List.length_drop, numBatches_step b l.length hb hlen, List.range_succ_eq_map,
    List.map_cons, List.map_map]
  congr 1
  · unfold batchAt
    simp
  · apply List.map_congr_left
    intro k _
    exact batchAt_succ b l k

theorem join_batches_aux (b : Nat) (hb : 0 < b) :
    ∀ (n : Nat) (l : List α), l.length ≤ n → (batches b l).flatten = l := by
  intro n
  induction n with
  | zero =>
    intro l hl
    have h : l = [] := List.length_eq_zero.mp (Nat.le_zero.mp hl)
    subst h
    simp [batches, numBatches_zero b hb]
  | succ n ih =>
    intro l hl
    cases l with
    | nil => simp [batches, numBatches_zero b hb]
    | cons x xs =>
      rw [batches_cons b hb _ (List.cons_ne_nil x xs), List.flatten_cons,
        ih _ (by simp [List.length_drop] at hl ⊢; omega), List.take_append_drop]

end CB2pdf

/-- C7: for every discovered file list of length n and batch size b > 0,
the list is partitioned into ceiling(n/b) consecutive batches of at most
b files processed in sequence (their concatenation, in order, is the
list), with a pause after batch k exactly when k is not the last batch;
in particular 12 files with batch size 5 give 3 batches of sizes 5, 5, 2
with pauses after batches 1 and 2 but not after batch 3. -/
theorem c7_batching {α : Type} (b : Nat) (hb : 0 < b) (l : List α) :
    (CB2pdf.batches b l).length = CB2pdf.numBatches b l.length ∧
    (CB2pdf.batches b l).flatten = l ∧
    (∀ c ∈ CB2pdf.batches b l, c.length ≤ b) ∧
    (∀ k, CB2pdf.pausesAfter b l.length k = true ↔
        k + 1 < CB2pdf.numBatches b l.length) ∧
    ((CB2pdf.batches 5 (List.range 12)).map List.length = [5, 5, 2] ∧
      CB2pdf.numBatches 5 12 = 3 ∧
      CB2pdf.pausesAfter 5 12 0 = true ∧ CB2pdf.pausesAfter 5 12 1 = true ∧
      CB2pdf.pausesAfter 5 12 2 = false) := by
  refine ⟨by simp [CB2pdf.batches], CB2pdf.join_batches_aux b hb l.length l le_rfl,
    ?_, ?_, by decide⟩
  · intro c hc
    rcases List.mem_map.mp hc with ⟨k, _, rfl⟩
    simpa [CB2pdf.batchAt] using List.length_take_le b (l.drop (k * b))
  · intro k
    unfold CB2pdf.pausesAfter CB2pdf.numBatches
    rw [decide_eq_true_iff]
    have h : k + 2 ≤ (l.length + b - 1) / b ↔ (k + 2) * b ≤ l.length + b - 1 :=
      Nat.le_div_iff_mul_le hb
    have hm : (k + 2) * b = k * b + b + b := by ring
    rw [hm] at h
    constructor
    · intro hlt
      have h2 := h.mpr (by omega)
      omega
    · intro hlt
      have h2 := h.mp (by omega)
      omega

/-- C7 witness: `c7_batching` instantiated at 12 files with batch size 5. -/
theorem c7_batching_witness :
    (CB2pdf.batches 5 (List.range 12)).flatten = List.range 12 ∧
    (CB2pdf.batches 5 (List.range 12)).map List.length = [5, 5, 2] :=
  ⟨(c7_batching 5 (by decide) (List.range 12)).2.1,
    (c7_batching 5 (by decide) (List.range 12)).2.2.2.2.1⟩

namespace CB2pdf

/-! ## Per-file conversion helpers -/

theorem images_to_pdf_nil (d : String → Option String) (s : Option String) :
    images_to_pdf d s [] = ⟨.ok (), [], [], false⟩ := rfl

theorem process_cbz_sel_nil (p : String) (f : FileSpec) (entries : List String)
    (hopen : f.openResult = .ok entries) (hsel : selectEntries entries = []) :
    process_cbz p f = ⟨[], false⟩ := by
  simp [process_cbz, hopen, hsel, images_to_pdf_nil]

theorem process_cbr_sel_nil (p : String) (f : FileSpec) (entries : List String)
    (hopen : f.openResult = .ok entries) (hsel : selectEntries entries = []) :
    process_cbr p f = ⟨[], false⟩ := by
  simp [process_cbr, hopen, hsel, images_to_pdf_nil]

theorem process_cbz_no_generic (p : String) (f : FileSpec) :
    (process_cbz p f).logs.any LogEntry.isGenericFailure = false := by
  cases hOpen : f.openResult with
  | error e => simp [process_cbz, hOpen, LogEntry.isGenericFailure]
  | ok entries =>
    cases hOut : (images_to_pdf f.decodeErr f.saveErr (selectEntries entries)).outcome with
    | error e => simp [process_cbz, hOpen, hOut, LogEntry.isGenericFailure]
    | ok u => simp [process_cbz, hOpen, hOut]

theorem process_cbr_no_generic (p : String) (f : FileSpec) :
    (process_cbr p f).logs.any LogEntry.isGenericFailure = false := by
  cases hOpen : f.openResult with
  | error e => cases e <;> simp [process_cbr, hOpen, LogEntry.isGenericFailure]
  | ok entries =>
    cases hOut : (images_to_pdf f.decodeErr f.saveErr (selectEntries entries)).outcome with
    | error e => simp [process_cbr, hOpen, hOut, LogEntry.isGenericFailure]
    | ok u => simp [process_cbr, hOpen, hOut]

theorem convertStep_no_generic (p : String) (f : FileSpec) :
    (convertStep p f).logs.any LogEntry.isGenericFailure = false := by
  unfold convertStep
  by_cases h1 : strEndsWith (strToLower f.name) ".cbz" = true
  · simp [h1, process_cbz_no_generic]
  · by_cases h2 : strEndsWith (strToLower f.name) ".cbr" = true
    · simp [h1, h2, process_cbr_no_generic]
    · simp [h1, h2]

theorem process_file_terminal (dir : String) (f : FileSpec) :
    terminalOutcome (process_file dir f) = true := by
  cases hMove : f.moveErr with
  | none => simp [process_file, hMove, terminalOutcome]
  | some e => simp [process_file, hMove, terminalOutcome]

end CB2pdf

/-- C1: the claim that each discovered file ends in exactly one of the two
outcomes (PDF produced and file relocated, or error logged and file left
in place) fails on the code: for a `.cbz` whose zip open raises, the
error is logged by `process_cbz` and swallowed there, so `process_file`
still runs `shutil.move` — the file is relocated with no PDF, an outcome
the claim excludes.  The move is documented in the source as happening
"after successful processing", so the code contradicts its own comment. -/
theorem c1_logged_error_still_relocated :
    CB2pdf.process_file "/src" CB2pdf.c1File =
      ⟨false, true,
        [CB2pdf.LogEntry.errorProcessingCBZ "/src/bad.cbz" "File is not a zip file"]⟩ ∧
    ¬((CB2pdf.process_file "/src" CB2pdf.c1File).pdfProduced = true ∧
      (CB2pdf.process_file "/src" CB2pdf.c1File).relocated = true) ∧
    ¬((CB2pdf.process_file "/src" CB2pdf.c1File).logs ≠ [] ∧
      (CB2pdf.process_file "/src" CB2pdf.c1File).relocated = false) :=
  ⟨by decide, by decide, by decide⟩

/-- C2: a `.cbr` that is not a valid rar stream does get a log line whose
text is "Not a valid RAR file: <path>", but the original file does NOT
stay in place — `process_cbr` swallows the exception, so `process_file`
still relocates the file into the archive subdirectory. -/
theorem c2_not_rar_logged_but_relocated :
    (CB2pdf.process_file "/src" CB2pdf.c2File).logs
        = [CB2pdf.LogEntry.notAValidRARFile "/src/bad.cbr"] ∧
    (CB2pdf.LogEntry.notAValidRARFile "/src/bad.cbr").render
        = "Not a valid RAR file: /src/bad.cbr" ∧
    (CB2pdf.process_file "/src" CB2pdf.c2File).relocated = true ∧
    (CB2pdf.process_file "/src" CB2pdf.c2File).pdfProduced = false := by
  decide

/-- C3 counterexample: a `.cbz` that opens fine but whose PDF encoding
raises is logged with the format-specific "Error processing CBZ" template
and produces no generic "Failed to process" entry — refuting the claim
that encoding failures are caught only by the outer handler and logged
with the generic template. -/
theorem c3_encoding_failure_counterexample :
    (CB2pdf.process_file "/src" CB2pdf.c3File).logs
        = [CB2pdf.LogEntry.errorProcessingCBZ "/src/comic.cbz" "cannot write PDF"] ∧
    (CB2pdf.process_file "/src" CB2pdf.c3File).logs.any
        CB2pdf.LogEntry.isGenericFailure = false := by
  decide

/-- C3 (amended): when the archive opens successfully and the conversion
step (`images_to_pdf`) then raises, the exception IS caught by the
per-format handler and logged with the format-specific
"Error processing CBZ/CBR" template; no generic "Failed to process"
entry is written (that template arises only from the relocation step). -/
theorem c3_encode_failure_format_specific (dir : String) (f : CB2pdf.FileSpec)
    (entries : List String) (e : String)
    (hopen : f.openResult = .ok entries)
    (henc : (CB2pdf.images_to_pdf f.decodeErr f.saveErr
        (CB2pdf.selectEntries entries)).outcome = .error e)
    (hmove : f.moveErr = none) :
    (CB2pdf.strEndsWith (CB2pdf.strToLower f.name) ".cbz" = true →
      (CB2pdf.process_file dir f).logs
        = [CB2pdf.LogEntry.errorProcessingCBZ (CB2pdf.pathJoin dir f.name) e]) ∧
    (CB2pdf.strEndsWith (CB2pdf.strToLower f.name) ".cbz" = false →
      CB2pdf.strEndsWith (CB2pdf.strToLower f.name) ".cbr" = true →
      (CB2pdf.process_file dir f).logs
        = [CB2pdf.LogEntry.errorProcessingCBR (CB2pdf.pathJoin dir f.name) e]) ∧
    (CB2pdf.process_file dir f).logs.any CB2pdf.LogEntry.isGenericFailure = false := by
  refine ⟨?_, ?_, ?_⟩
  · intro h1
    simp [CB2pdf.process_file, hmove, CB2pdf.convertStep, h1,
      CB2pdf.process_cbz, hopen, henc]
  · intro h1 h2
    simp [CB2pdf.process_file, hmove, CB2pdf.convertStep, h1, h2,
      CB2pdf.process_cbr, hopen, henc]
  · simp [CB2pdf.process_file, hmove, CB2pdf.convertStep_no_generic]

/-- C3 witness: `c3_encode_failure_format_specific` at the concrete file
`c3File`. -/
theorem c3_encode_failure_format_specific_witness :
    (CB2pdf.process_file "/src" CB2pdf.c3File).logs
        = [CB2pdf.LogEntry.errorProcessingCBZ "/src/comic.cbz" "cannot write PDF"] :=
  (c3_encode_failure_format_specific "/src" CB2pdf.c3File ["page1.jpg"] "cannot write PDF"
    rfl (by decide) rfl).1 (by decide)

/-- C4 counterexample: with one entry that decodes fine and a PDF save
that raises, `images_to_pdf` leaves the decoded image unreleased — the
cleanup loop is skipped on the raising path, refuting the claim that all
decoded images are closed on every path. -/
theorem c4_images_not_closed_counterexample :
    (CB2pdf.images_to_pdf CB2pdf.c4Decode (some "disk full") ["a.jpg"]).opened
        = ["a.jpg"] ∧
    (CB2pdf.images_to_pdf CB2pdf.c4Decode (some "disk full") ["a.jpg"]).closed = [] := by
  decide

/-- C4 (amended): all decoded images are closed when `images_to_pdf`
completes without an exception; when decoding or PDF encoding raises,
none of the decoded images are closed (there is no `finally`). -/
theorem c4_images_closed_iff_no_exception (d : String → Option String)
    (s : Option String) (files : List String) :
    ((CB2pdf.images_to_pdf d s files).outcome = .ok () →
      (CB2pdf.images_to_pdf d s files).closed
        = (CB2pdf.images_to_pdf d s files).opened) ∧
    (∀ e, (CB2pdf.images_to_pdf d s files).outcome = .error e →
      (CB2pdf.images_to_pdf d s files).closed = []) := by
  unfold CB2pdf.images_to_pdf
  rcases h : CB2pdf.decodeLoop d files with ⟨opened, _ | e⟩
  · by_cases hE : opened.isEmpty
    · simp [h, hE]
    · cases s with
      | none => simp [h, hE]
      | some e => simp [h, hE]
  · simp [h]

/-- C4 witness: `c4_images_closed_iff_no_exception` on the success path. -/
theorem c4_images_closed_iff_no_exception_witness :
    (CB2pdf.images_to_pdf CB2pdf.c4Decode none ["a.jpg"]).closed
      = (CB2pdf.images_to_pdf CB2pdf.c4Decode none ["a.jpg"]).opened :=
  (c4_images_closed_iff_no_exception CB2pdf.c4Decode none ["a.jpg"]).1 (by decide)

/-- C6: an archive that opens successfully but holds zero qualifying image
entries produces no PDF and no log entry, and the source file is still
relocated (the move primitive succeeding). -/
theorem c6_empty_archive (dir : String) (f : CB2pdf.FileSpec) (entries : List String)
    (hname : CB2pdf.strEndsWith (CB2pdf.strToLower f.name) ".cbz" = true ∨
      CB2pdf.strEndsWith (CB2pdf.strToLower f.name) ".cbr" = true)
    (hopen : f.openResult = .ok entries)
    (hsel : CB2pdf.selectEntries entries = [])
    (hmove : f.moveErr = none) :
    CB2pdf.process_file dir f = ⟨false, true, []⟩ := by
  have hz := CB2pdf.process_cbz_sel_nil (CB2pdf.pathJoin dir f.name) f entries hopen hsel
  have hr := CB2pdf.process_cbr_sel_nil (CB2pdf.pathJoin dir f.name) f entries hopen hsel
  rcases hname with h | h
  · simp [CB2pdf.process_file, hmove, CB2pdf.convertStep, h, hz]
  · by_cases h2 : CB2pdf.strEndsWith (CB2pdf.strToLower f.name) ".cbz" = true
    · simp [CB2pdf.process_file, hmove, CB2pdf.convertStep, h2, hz]
    · simp [CB2pdf.process_file, hmove, CB2pdf.convertStep, h, h2, hr]

/-- C6 witness: `c6_empty_archive` at the concrete file `c6File`, whose
entries "notes.txt" and "cover.bmp" both fail the image filter. -/
theorem c6_empty_archive_witness :
    CB2pdf.process_file "/src" CB2pdf.c6File = ⟨false, true, []⟩ :=
  c6_empty_archive "/src" CB2pdf.c6File ["notes.txt", "cover.bmp"]
    (Or.inr (by decide)) rfl (by decide) rfl

/-- C8: every per-file error is caught and logged at or below the file
boundary — `process_file` is total on every oracle behavior, so no error
propagates to the batch level; consequently a batch maps every submitted
file to an outcome, each job reaches a terminal state (relocated, or at
least one log entry of its own), and each outcome depends only on its own
file. -/
theorem c8_error_isolation (dir : String) (files : List CB2pdf.FileSpec) :
    (CB2pdf.processBatch dir files).length = files.length ∧
    (∀ f ∈ files, CB2pdf.process_file dir f ∈ CB2pdf.processBatch dir files) ∧
    (∀ o ∈ CB2pdf.processBatch dir files, CB2pdf.terminalOutcome o = true) := by
  refine ⟨by simp [CB2pdf.processBatch], ?_, ?_⟩
  · intro f hf
    simpa [CB2pdf.processBatch] using
      List.mem_map_of_mem (CB2pdf.process_file dir) hf
  · intro o ho
    unfold CB2pdf.processBatch at ho
    rcases List.mem_map.mp ho with ⟨f, _, rfl⟩
    exact CB2pdf.process_file_terminal dir f

/-- C8 witness: a batch holding a job whose decoding raises still maps it
to a terminal outcome. -/
theorem c8_error_isolation_witness :
    (CB2pdf.processBatch "/src" [CB2pdf.c8File]).length = 1 ∧
    CB2pdf.terminalOutcome (CB2pdf.process_file "/src" CB2pdf.c8File) = true :=
  ⟨(c8_error_isolation "/src" [CB2pdf.c8File]).1,
    (c8_error_isolation "/src" [CB2pdf.c8File]).2.2 _
      ((c8_error_isolation "/src" [CB2pdf.c8File]).2.1 _ (by simp))⟩

/-- C10: a generic "Failed to process" log entry is written exactly when
the relocation step raises — the per-format handlers catch every
conversion exception internally — and whenever that template is logged
the move did not complete, so the original file remains in place. -/
theorem c10_generic_template_iff_move_failure (dir : String) (f : CB2pdf.FileSpec) :
    ((CB2pdf.process_file dir f).logs.any CB2pdf.LogEntry.isGenericFailure = true ↔
      f.moveErr ≠ none) ∧
    ((CB2pdf.process_file dir f).logs.any CB2pdf.LogEntry.isGenericFailure = true →
      (CB2pdf.process_file dir f).relocated = false) := by
  have hc := CB2pdf.convertStep_no_generic (CB2pdf.pathJoin dir f.name) f
  cases hMove : f.moveErr with
  | none => exact ⟨by simp [CB2pdf.process_file, hMove, hc], by simp [CB2pdf.process_file, hMove, hc]⟩
  | some e =>
    refine ⟨by simp [CB2pdf.process_file, hMove, hc, CB2pdf.LogEntry.isGenericFailure], ?_⟩
    intro _
    simp [CB2pdf.process_file, hMove]

/-- C10 witness: `c10_generic_template_iff_move_failure` at a file whose
move raises "Permission denied". -/
theorem c10_generic_template_iff_move_failure_witness :
    (CB2pdf.process_file "/src" CB2pdf.c10File).relocated = false :=
  (c10_generic_template_iff_move_failure "/src" CB2pdf.c10File).2 (by decide)
